import Mathlib

/-!
# SoundGuard AI — verification of the processing-orchestration layer

Shallow embedding of the server-side orchestration code of the soundguard-ai
repository:

* the Mongoose `Audio` model (sub-schemas `processingSchema` / `resultsSchema`,
  path validators, the lowercasing pre-save hook, and the instance methods
  `markEnhanced` / `saveAQI` / `saveForensics` / `saveExplainability`);
* the controller operations `uploadAudio`, `enhanceAudio`, `explainDenoising`,
  `calculateAQI`, `detectTampering`, `deleteAudio`, with their WebSocket
  `broadcast` progress events recorded as an explicit action trace;
* the Python-service gateway error normalization `handlePythonError`.

Modelling conventions: JS numbers that the claims touch are `Int`; opaque
`Schema.Types.Mixed` result blobs are the `Mixed` wrapper; a fallible JS
`await` is `Except JsError`; the outcome of a remote gateway call is passed in
as an `Except` oracle argument; the file system is the list of existing paths;
the database is modelled per asset (`Option Audio`), which is the granularity
every claim quantifies at.  Mongoose runs path validation *before* user
`pre('save')` hooks (documented Mongoose behaviour: changes made in a
`pre('save')` hook are not validated), and `saveDoc` mirrors that order.
-/

namespace SoundGuard

/-- An opaque JSON blob (models `Schema.Types.Mixed` payloads); only its
identity matters to the orchestration layer. -/
structure Mixed where
  blob : String
  deriving DecidableEq, Repr

/-- A JavaScript `Error` value: its `name` (the class tag, `"Error"` for a
plain `new Error(msg)`) and its `message`. -/
structure JsError where
  name : String
  message : String
  deriving DecidableEq, Repr

/-- JS `a || b` on nullable strings: `null`/`undefined` and `""` are falsy. -/
def jsOrStr : Option String → Option String → Option String
  | some s, b => if s = "" then b else some s
  | none, b => b

/-- JS `n || null` on nullable numbers: `0` (and `NaN`, not modelled) is
falsy, so `parseFloat(x) || null` maps 0 to null. -/
def jsNumOrNull : Option Int → Option Int
  | some 0 => none
  | o => o

/-- Hexadecimal digit test, as used by ObjectId validity. -/
def isHexChar (c : Char) : Bool :=
  (('0' ≤ c) && (c ≤ '9')) || (('a' ≤ c) && (c ≤ 'f')) || (('A' ≤ c) && (c ≤ 'F'))

/-- `mongoose.Types.ObjectId.isValid`: a 24-character hex string, or any
12-character string. -/
def isValidObjectId (s : String) : Bool :=
  (s.length == 24 && s.data.all isHexChar) || s.length == 12

/-- ASCII uppercase-letter test (the uppercase letters relevant to the format
strings the model stores). -/
def charIsUpper (c : Char) : Bool := 65 ≤ c.toNat && c.toNat ≤ 90

/-- Model of JS `String.prototype.toLowerCase` on one character (ASCII
range; the format strings in scope are ASCII). -/
def charToLower (c : Char) : Char :=
  if charIsUpper c then Char.ofNat (c.toNat + 32) else c

/-- Model of JS `String.prototype.toLowerCase`. -/
def strToLower (s : String) : String := ⟨s.data.map charToLower⟩

/-- Does the string contain an (ASCII) uppercase letter? -/
def strHasUpper (s : String) : Bool := s.data.any charIsUpper

/-- Suffix of the character list starting at its *last* dot, if any. -/
def extSuffix : List Char → Option (List Char)
  | [] => none
  | c :: rest =>
    match extSuffix rest with
    | some e => some e
    | none => if c == '.' then some ('.' :: rest) else none

/-- Model of Node `path.extname` on a bare filename: the substring from the
last dot to the end; empty when there is no dot or the only dot is the
leading character (directory separators do not occur in the uploaded
`originalname` values in scope). -/
def extname (s : String) : String :=
  match s.data with
  | [] => ""
  | _ :: rest =>
    match extSuffix rest with
    | some e => ⟨e⟩
    | none => ""

/-- JS `s.replace('.', '')`: removes the *first* occurrence of the dot only. -/
def removeFirstDotAux : List Char → List Char
  | [] => []
  | c :: rest => if c == '.' then rest else c :: removeFirstDotAux rest

/-- JS `s.replace('.', '')` on a string. -/
def removeFirstDot (s : String) : String := ⟨removeFirstDotAux s.data⟩

/-- Substring-match helper: does the second list start with the first? -/
def startsWithChars : List Char → List Char → Bool
  | [], _ => true
  | _ :: _, [] => false
  | c :: cs, d :: ds => c == d && startsWithChars cs ds

/-- Substring-match helper: does the needle occur anywhere in the haystack? -/
def hasInfixChars (needle : List Char) : List Char → Bool
  | [] => startsWithChars needle []
  | c :: cs => startsWithChars needle (c :: cs) || hasInfixChars needle cs

/-- Does `s` contain `sub` as a contiguous substring? -/
def strContainsSub (s sub : String) : Bool := hasInfixChars sub.data s.data

/-! ## The Audio data model (`processingSchema`, `resultsSchema`, `audioSchema`) -/

/-- The `processingSchema` sub-document: per-module completion flags and
headline scores.  Defaults are the schema defaults (`enhanced: false`,
everything else `null`).  Note there is *no* explainability field here. -/
structure ProcessingState where
  enhanced : Bool := false
  enhancementModel : Option String := none
  aqiScore : Option Int := none
  authenticityScore : Option Int := none
  tamperingDetected : Option Bool := none
  deriving DecidableEq, Repr

/-- The JSON payload returned by the Python `/aqi` endpoint: the score the
controller reads plus the rest of the blob, stored whole in `results.aqi`. -/
structure AQIResult where
  aqiScore : Int
  payload : Mixed
  deriving DecidableEq, Repr

/-- The JSON payload returned by `/forensics`: the two fields the controller
reads plus the rest of the blob, stored whole in `results.forensics`. -/
structure ForensicsResult where
  authenticityScore : Int
  tamperingDetected : Bool
  payload : Mixed
  deriving DecidableEq, Repr

/-- The JSON payload returned by `/enhance`: the controller reads
`enhancedFilePath || enhanced_file_path || null` and `metrics` (which the
service may omit — `none`). -/
structure EnhanceResult where
  enhancedFilePath : Option String
  enhanced_file_path : Option String
  metrics : Option Mixed
  deriving DecidableEq, Repr

/-- The `resultsSchema` sub-document: one `Mixed`-typed, nullable entry per
module (here typed by what each controller actually stores). -/
structure AudioResults where
  enhancement : Option Mixed := none
  explainability : Option Mixed := none
  aqi : Option AQIResult := none
  forensics : Option ForensicsResult := none
  deriving DecidableEq, Repr

/-- The `audioSchema` document. -/
structure Audio where
  filename : String
  originalPath : Option String := none
  enhancedPath : Option String := none
  format : Option String := none
  duration : Option Int := none
  sampleRate : Option Int := none
  channels : Option Int := none
  fileSize : Option Int := none
  bitrate : Option Int := none
  processing : ProcessingState := {}
  results : AudioResults := {}
  deriving DecidableEq, Repr

/-- The `format` path enum (`null` is allowed separately via `Option`). -/
def allowedFormats : List String := ["mp3", "wav", "flac", "ogg", "m4a", "aac"]

/-- The `enhancementModel` path enum (`null` allowed separately). -/
def allowedModels : List String := ["DEMUCS", "CleanUNet", "FullSubNet+"]

/-- `min`/`max` validator on a nullable number path (skipped on `null`). -/
def optInRange (lo hi : Int) : Option Int → Bool
  | none => true
  | some n => lo ≤ n && n ≤ hi

/-- `min: 0` validator on a nullable number path. -/
def optNonneg : Option Int → Bool
  | none => true
  | some n => 0 ≤ n

/-- Mongoose path validation of an `Audio` document: `filename` required,
`format`/`enhancementModel` enums, numeric `min`/`max` bounds — in
particular `aqiScore` and `authenticityScore` must lie in [0, 100]. -/
def validateAudio (a : Audio) : Bool :=
  a.filename != "" &&
  (match a.format with
   | none => true
   | some f => allowedFormats.contains f) &&
  optNonneg a.duration &&
  optNonneg a.sampleRate &&
  (match a.channels with
   | none => true
   | some n => 1 ≤ n && n ≤ 8) &&
  optNonneg a.fileSize &&
  optNonneg a.bitrate &&
  optInRange 0 100 a.processing.aqiScore &&
  optInRange 0 100 a.processing.authenticityScore &&
  (match a.processing.enhancementModel with
   | none => true
   | some m => allowedModels.contains m)

/-- The `audioSchema.pre('save')` hook: lowercase `format` when it is truthy
(non-null and non-empty). -/
def applyPreSave (a : Audio) : Audio :=
  match a.format with
  | some f => if f == "" then a else { a with format := some (strToLower f) }
  | none => a

/-- System state as seen from one asset: its database record (if any) and the
set of paths currently existing in file storage. -/
structure SysState where
  record : Option Audio := none
  files : List String := []
  deriving DecidableEq, Repr

/-- The error a rejected `document.save()` surfaces. -/
def validationError : JsError := ⟨"ValidationError", "Audio validation failed"⟩

/-- `document.save()`: validate the document as assigned, then run the
`pre('save')` hook and persist.  (Mongoose validates *before* user
`pre('save')` hooks run.) -/
def saveDoc (st : SysState) (a : Audio) : Except JsError SysState :=
  if validateAudio a then .ok { st with record := some (applyPreSave a) }
  else .error validationError

/-- Instance method `markEnhanced(enhancedPath, modelName, metrics)`:
assigns the enhanced path, flips the flag, stores `metrics || null` as the
enhancement result, then saves. -/
def markEnhanced (st : SysState) (a : Audio) (enhancedPath : Option String)
    (modelName : String) (metrics : Option Mixed) : Except JsError SysState :=
  saveDoc st
    { a with
      enhancedPath := enhancedPath
      processing :=
        { a.processing with enhanced := true, enhancementModel := some modelName }
      results := { a.results with enhancement := metrics } }

/-- Instance method `saveAQI(score, detailedMetrics)`. -/
def saveAQI (st : SysState) (a : Audio) (score : Int) (detailedMetrics : AQIResult) :
    Except JsError SysState :=
  saveDoc st
    { a with
      processing := { a.processing with aqiScore := some score }
      results := { a.results with aqi := some detailedMetrics } }

/-- Instance method `saveForensics(authenticityScore, tampered, details)`. -/
def saveForensics (st : SysState) (a : Audio) (authenticityScore : Int)
    (tampered : Bool) (details : ForensicsResult) : Except JsError SysState :=
  saveDoc st
    { a with
      processing :=
        { a.processing with
          authenticityScore := some authenticityScore
          tamperingDetected := some tampered }
      results := { a.results with forensics := some details } }

/-- Instance method `saveExplainability(data)`. -/
def saveExplainability (st : SysState) (a : Audio) (data : Mixed) :
    Except JsError SysState :=
  saveDoc st { a with results := { a.results with explainability := some data } }

/-! ## Progress events and controller traces -/

/-- Lifecycle status of a progress event. -/
inductive EvStatus where
  | processing
  | complete
  | error
  deriving DecidableEq, Repr

/-- The broadcast wire payload
`{ type: 'progress', module, status, audioId, error? }`. -/
structure ProgressEvent where
  moduleName : String
  status : EvStatus
  audioId : String
  errorMsg : Option String := none
  deriving DecidableEq, Repr

/-- Observable actions of one controller invocation, in program order: a
`broadcast` of a progress event, or the start of the gateway call (for
explainability, with the optional enhanced-path argument it passes). -/
inductive Action where
  | emit (e : ProgressEvent)
  | callGateway (moduleName : String) (audioId : String) (enhancedArg : Option String)
  deriving DecidableEq, Repr

/-- The progress events broadcast during a trace, in order. -/
def eventsOf (t : List Action) : List ProgressEvent :=
  t.filterMap fun a =>
    match a with
    | .emit e => some e
    | _ => none

/-- Count the events of a given status in a list of events. -/
def countStatus (es : List ProgressEvent) (s : EvStatus) : Nat :=
  (es.filter fun e => e.status == s).length

/-- The `processing` event for a module run. -/
def progressEv (m aid : String) : ProgressEvent := ⟨m, .processing, aid, none⟩

/-- The `complete` event for a module run. -/
def completeEv (m aid : String) : ProgressEvent := ⟨m, .complete, aid, none⟩

/-- The `error` event for a module run, carrying the error message. -/
def errorEv (m aid msg : String) : ProgressEvent := ⟨m, .error, aid, some msg⟩

/-- An HTTP response as far as the claims observe it. -/
structure HttpResponse where
  status : Nat
  success : Bool
  message : String
  deriving DecidableEq, Repr

/-- Outcome of one controller invocation: the response (`none` when the
handler returns without responding, as `enhanceAudio` does on a falsy
`audioId`), the post-state, and the action trace. -/
structure OpOut where
  resp : Option HttpResponse
  state : SysState
  trace : List Action
  deriving DecidableEq, Repr

/-- Did the invocation respond with `success: true`? -/
def respOk (o : OpOut) : Bool :=
  match o.resp with
  | some r => r.success
  | none => false

/-- The controllers' shared guard
`!audio.originalPath || !fs.existsSync(audio.originalPath)` (negated):
the source path is truthy and exists in storage. -/
def sourceOnDisk (st : SysState) (a : Audio) : Bool :=
  match a.originalPath with
  | none => false
  | some p => p != "" && st.files.contains p

/-! ## Gateway error normalization (`pythonService.handlePythonError`) -/

/-- The transport-failure shapes an axios call can produce. -/
inductive AxiosErr where
  | connRefused
  | httpResponse (status : Nat) (dataMessage : Option String) (dataError : Option String)
  | connAborted
  | other (e : JsError)
  deriving DecidableEq, Repr

/-- `handlePythonError(err, endpoint)`: normalizes a transport failure into
the error thrown to the controller.  Every normalized branch throws a plain
`new Error(message)` (name `"Error"`); the fallback rethrows the original
error unchanged. -/
def handlePythonError (baseUrl : String) (err : AxiosErr) (endpoint : String) : JsError :=
  match err with
  | .connRefused =>
    ⟨"Error", "Python service is not reachable at " ++ baseUrl ++ endpoint ++ ". Is it running?"⟩
  | .httpResponse status dataMessage dataError =>
    ⟨"Error",
      (jsOrStr dataMessage (jsOrStr dataError none)).getD
        ("Python service error " ++ toString status ++ " on " ++ endpoint)⟩
  | .connAborted =>
    ⟨"Error", "Python service timed out on " ++ endpoint ++ ". Try a shorter audio file."⟩
  | .other e => e

/-! ## Controller operations (`audioController`) -/

/-- `req.file` as multer hands it to `uploadAudio`: the stored path, the
client-sent original name, and the byte size. -/
structure ReqFile where
  path : String
  originalname : String
  size : Int
  deriving DecidableEq, Repr

/-- Parsed ffprobe metadata (numeric string parsing abstracted to the parsed
values; `extractMetadata` failure is the `Except.error` case). -/
structure ProbeMeta where
  duration : Option Int := none
  sampleRate : Option Int := none
  channels : Option Int := none
  bitRate : Option Int := none
  deriving DecidableEq, Repr

/-- `Math.round(b / 1000)` on an integer `b`. -/
def jsRound1000 (b : Int) : Int := (b + 500).fdiv 1000

/-- `safeUnlink(path)`: remove the file if the path is truthy and the file
exists; never throws. -/
def safeUnlink (files : List String) (p : Option String) : List String :=
  match p with
  | some q => if q != "" && files.contains q then files.erase q else files
  | none => files

/-- The `new Audio({...})` document `uploadAudio` builds: metadata extracted
by ffprobe (falling back to the empty metadata on probe failure), the
lowercased filename extension as `format`, and default processing/results. -/
def uploadDoc (f : ReqFile) (probe : Except JsError ProbeMeta) : Audio :=
  let meta : ProbeMeta :=
    match probe with
    | .ok m => m
    | .error _ => {}
  { filename := f.originalname
    originalPath := some f.path
    format := some (strToLower (removeFirstDot (extname f.originalname)))
    duration := jsNumOrNull meta.duration
    sampleRate := jsNumOrNull meta.sampleRate
    channels := jsNumOrNull meta.channels
    fileSize := some f.size
    bitrate :=
      match meta.bitRate with
      | none => none
      | some b => if b == 0 then none else some (jsRound1000 b) }

/-- `uploadAudio`: multer has already written the file (its path is expected
in `st.files`).  Extract metadata (failure degrades to null metadata), build
the document with the lowercased filename extension as `format`, and save.
On a save failure the controller itself rolls the uploaded file back with
`safeUnlink` before responding 500. -/
def uploadAudio (st : SysState) (file : Option ReqFile)
    (probe : Except JsError ProbeMeta) : OpOut :=
  match file with
  | none => ⟨some ⟨400, false, "No audio file provided."⟩, st, []⟩
  | some f =>
    match saveDoc st (uploadDoc f probe) with
    | .ok st2 => ⟨some ⟨201, true, "File uploaded successfully."⟩, st2, []⟩
    | .error _ =>
      ⟨some ⟨500, false, "Upload processing failed."⟩,
        { st with files := safeUnlink st.files (some f.path) }, []⟩

/-- `enhanceAudio`: validate the id, load the record, check the source file
is on disk, broadcast `processing`, call the gateway, persist via
`markEnhanced`, broadcast `complete`; any failure inside the try block
broadcasts `error` and responds 502 with the error's message. -/
def enhanceAudio (st : SysState) (audioId : String) (modelName : String)
    (gw : Except JsError EnhanceResult) : OpOut :=
  if audioId == "" then ⟨none, st, []⟩
  else if !isValidObjectId audioId then
    ⟨some ⟨400, false, "Invalid audio ID."⟩, st, []⟩
  else
    match st.record with
    | none => ⟨some ⟨404, false, "Audio record not found."⟩, st, []⟩
    | some audio =>
      if !sourceOnDisk st audio then
        ⟨some ⟨404, false, "Original audio file not found on disk."⟩, st, []⟩
      else
        match gw with
        | .error e =>
          ⟨some ⟨502, false, e.message⟩, st,
            [.emit (progressEv "enhance" audioId),
             .callGateway "enhance" audioId none,
             .emit (errorEv "enhance" audioId e.message)]⟩
        | .ok result =>
          let enhancedPath :=
            jsOrStr result.enhancedFilePath (jsOrStr result.enhanced_file_path none)
          match markEnhanced st audio enhancedPath modelName result.metrics with
          | .error e =>
            ⟨some ⟨502, false, e.message⟩, st,
              [.emit (progressEv "enhance" audioId),
               .callGateway "enhance" audioId none,
               .emit (errorEv "enhance" audioId e.message)]⟩
          | .ok st2 =>
            ⟨some ⟨200, true, "Audio enhanced successfully."⟩, st2,
              [.emit (progressEv "enhance" audioId),
               .callGateway "enhance" audioId none,
               .emit (completeEv "enhance" audioId)]⟩

/-- `explainDenoising`: same shape; passes the enhanced path to the gateway
only when it is set and still on disk; persists via `saveExplainability`. -/
def explainDenoising (st : SysState) (audioId : String)
    (gw : Except JsError Mixed) : OpOut :=
  if audioId == "" then ⟨none, st, []⟩
  else if !isValidObjectId audioId then
    ⟨some ⟨400, false, "Invalid audio ID."⟩, st, []⟩
  else
    match st.record with
    | none => ⟨some ⟨404, false, "Audio record not found."⟩, st, []⟩
    | some audio =>
      if !sourceOnDisk st audio then
        ⟨some ⟨404, false, "Original audio file not found on disk."⟩, st, []⟩
      else
        let enhancedArg :=
          match audio.enhancedPath with
          | some p => if p != "" && st.files.contains p then some p else none
          | none => none
        match gw with
        | .error e =>
          ⟨some ⟨502, false, e.message⟩, st,
            [.emit (progressEv "explainability" audioId),
             .callGateway "explainability" audioId enhancedArg,
             .emit (errorEv "explainability" audioId e.message)]⟩
        | .ok result =>
          match saveExplainability st audio result with
          | .error e =>
            ⟨some ⟨502, false, e.message⟩, st,
              [.emit (progressEv "explainability" audioId),
               .callGateway "explainability" audioId enhancedArg,
               .emit (errorEv "explainability" audioId e.message)]⟩
          | .ok st2 =>
            ⟨some ⟨200, true, "Explainability analysis complete."⟩, st2,
              [.emit (progressEv "explainability" audioId),
               .callGateway "explainability" audioId enhancedArg,
               .emit (completeEv "explainability" audioId)]⟩

/-- `calculateAQI`: same shape; persists `result.aqiScore` and the whole
result via `saveAQI` — note: no clamping of the score anywhere. -/
def calculateAQI (st : SysState) (audioId : String)
    (gw : Except JsError AQIResult) : OpOut :=
  if audioId == "" then ⟨none, st, []⟩
  else if !isValidObjectId audioId then
    ⟨some ⟨400, false, "Invalid audio ID."⟩, st, []⟩
  else
    match st.record with
    | none => ⟨some ⟨404, false, "Audio record not found."⟩, st, []⟩
    | some audio =>
      if !sourceOnDisk st audio then
        ⟨some ⟨404, false, "Original audio file not found on disk."⟩, st, []⟩
      else
        match gw with
        | .error e =>
          ⟨some ⟨502, false, e.message⟩, st,
            [.emit (progressEv "aqi" audioId),
             .callGateway "aqi" audioId none,
             .emit (errorEv "aqi" audioId e.message)]⟩
        | .ok result =>
          match saveAQI st audio result.aqiScore result with
          | .error e =>
            ⟨some ⟨502, false, e.message⟩, st,
              [.emit (progressEv "aqi" audioId),
               .callGateway "aqi" audioId none,
               .emit (errorEv "aqi" audioId e.message)]⟩
          | .ok st2 =>
            ⟨some ⟨200, true, "AQI calculated successfully."⟩, st2,
              [.emit (progressEv "aqi" audioId),
               .callGateway "aqi" audioId none,
               .emit (completeEv "aqi" audioId)]⟩

/-- `detectTampering`: same shape; persists score, flag and the whole result
via `saveForensics` — again with no clamping. -/
def detectTampering (st : SysState) (audioId : String)
    (gw : Except JsError ForensicsResult) : OpOut :=
  if audioId == "" then ⟨none, st, []⟩
  else if !isValidObjectId audioId then
    ⟨some ⟨400, false, "Invalid audio ID."⟩, st, []⟩
  else
    match st.record with
    | none => ⟨some ⟨404, false, "Audio record not found."⟩, st, []⟩
    | some audio =>
      if !sourceOnDisk st audio then
        ⟨some ⟨404, false, "Original audio file not found on disk."⟩, st, []⟩
      else
        match gw with
        | .error e =>
          ⟨some ⟨502, false, e.message⟩, st,
            [.emit (progressEv "forensics" audioId),
             .callGateway "forensics" audioId none,
             .emit (errorEv "forensics" audioId e.message)]⟩
        | .ok result =>
          match saveForensics st audio result.authenticityScore
              result.tamperingDetected result with
          | .error e =>
            ⟨some ⟨502, false, e.message⟩, st,
              [.emit (progressEv "forensics" audioId),
               .callGateway "forensics" audioId none,
               .emit (errorEv "forensics" audioId e.message)]⟩
          | .ok st2 =>
            ⟨some ⟨200, true, "Tampering analysis complete."⟩, st2,
              [.emit (progressEv "forensics" audioId),
               .callGateway "forensics" audioId none,
               .emit (completeEv "forensics" audioId)]⟩

/-- `deleteAudio`: validate the id, load the record, delete the physical
files first (`safeUnlink`, which never throws), then the record. -/
def deleteAudio (st : SysState) (id : String) : OpOut :=
  if !isValidObjectId id then ⟨some ⟨400, false, "Invalid audio ID."⟩, st, []⟩
  else
    match st.record with
    | none => ⟨some ⟨404, false, "Audio record not found."⟩, st, []⟩
    | some audio =>
      let files1 := safeUnlink st.files audio.originalPath
      let files2 := safeUnlink files1 audio.enhancedPath
      ⟨some ⟨200, true, "Audio file and record deleted successfully."⟩,
        ⟨none, files2⟩, []⟩

/-! ## Operation sequences -/

/-- One orchestrator operation together with its request data and the
outcome of its gateway call. -/
inductive Op where
  | upload (file : Option ReqFile) (probe : Except JsError ProbeMeta)
  | enhance (audioId modelName : String) (gw : Except JsError EnhanceResult)
  | explain (audioId : String) (gw : Except JsError Mixed)
  | aqi (audioId : String) (gw : Except JsError AQIResult)
  | forensics (audioId : String) (gw : Except JsError ForensicsResult)
  | remove (id : String)

/-- Dispatch one operation. -/
def applyOp (st : SysState) : Op → OpOut
  | .upload f p => uploadAudio st f p
  | .enhance aid m gw => enhanceAudio st aid m gw
  | .explain aid gw => explainDenoising st aid gw
  | .aqi aid gw => calculateAQI st aid gw
  | .forensics aid gw => detectTampering st aid gw
  | .remove id => deleteAudio st id

/-- Run a sequence of operations, threading the state. -/
def applyOps (st : SysState) (ops : List Op) : SysState :=
  ops.foldl (fun s op => (applyOp s op).state) st

/-! ## Concrete fixtures used by counterexamples and witnesses -/

/-- A well-formed 24-hex-character ObjectId. -/
def demoId : String := "aaaaaaaaaaaaaaaaaaaaaaaa"

/-- A freshly registered asset. -/
def demoAudio : Audio :=
  { filename := "clip.wav"
    originalPath := some "/uploads/clip.wav"
    format := some "wav"
    fileSize := some 120000 }

/-- A state holding `demoAudio` with its source file present in storage. -/
def demoState : SysState := ⟨some demoAudio, ["/uploads/clip.wav"]⟩

/-- `demoAudio` after a successful quality-scoring run that returned 87. -/
def demoAudioAfterAQI : Audio :=
  { demoAudio with
    processing := { demoAudio.processing with aqiScore := some 87 }
    results := { demoAudio.results with aqi := some ⟨87, ⟨"m"⟩⟩ } }

/-! ## Trace predicates for the ordering claims -/

/-- Project the actions of run `r` out of an interleaved, run-tagged trace,
preserving their relative order. -/
def projRun (T : List (Nat × Action)) (r : Nat) : List Action :=
  (T.filter fun p => p.fst == r).map Prod.snd

/-- The 1:1:1 shape of one module run's trace: exactly one `processing`
emit, then the gateway call, then exactly one terminal emit, which is
either `complete` or `error`. -/
def runTrace121 (m aid : String) (t : List Action) : Prop :=
  ∃ earg last,
    (last = completeEv m aid ∨ ∃ msg, last = errorEv m aid msg) ∧
    t = [.emit (progressEv m aid), .callGateway m aid earg, .emit last]

/-! ## Alignment of ProcessingState with Results -/

/-- Does the ProcessingState agree with the Results record?  The quality
score is set iff `results.aqi` is, the forensics score and flag are set iff
`results.forensics` is, and a non-null `results.enhancement` entry implies
the enhancement flag (the converse direction fails in the code when the
gateway omits `metrics`; explainability has no ProcessingState field at
all). -/
def scoreResultsAligned (a : Audio) : Bool :=
  (a.processing.aqiScore.isSome == a.results.aqi.isSome) &&
  (a.processing.authenticityScore.isSome == a.results.forensics.isSome) &&
  (a.processing.tamperingDetected.isSome == a.results.forensics.isSome) &&
  (!a.results.enhancement.isSome || a.processing.enhanced)

/-- The alignment invariant on a state: its record, if present, is aligned. -/
def recordAligned (st : SysState) : Bool :=
  match st.record with
  | some a => scoreResultsAligned a
  | none => true

/-! ## Helper lemmas -/

lemma applyPreSave_processing (a : Audio) : (applyPreSave a).processing = a.processing := by
  unfold applyPreSave
  split
  · split <;> rfl
  · rfl

lemma applyPreSave_results (a : Audio) : (applyPreSave a).results = a.results := by
  unfold applyPreSave
  split
  · split <;> rfl
  · rfl

lemma applyPreSave_enhancedPath (a : Audio) : (applyPreSave a).enhancedPath = a.enhancedPath := by
  unfold applyPreSave
  split
  · split <;> rfl
  · rfl

lemma optInRange_some {lo hi s : Int} (h : optInRange lo hi (some s) = true) :
    lo ≤ s ∧ s ≤ hi := by
  simpa [optInRange, Bool.and_eq_true, decide_eq_true_eq] using h

lemma validateAudio_scores {a : Audio} (h : validateAudio a = true) :
    optInRange 0 100 a.processing.aqiScore = true ∧
    optInRange 0 100 a.processing.authenticityScore = true := by
  simp only [validateAudio, Bool.and_eq_true] at h
  exact ⟨h.1.1.2, h.1.2⟩

lemma charIsUpper_charToLower (c : Char) : charIsUpper (charToLower c) = false := by
  unfold charToLower
  by_cases h : charIsUpper c = true
  · simp only [h, if_true]
    unfold charIsUpper at h ⊢
    simp only [Bool.and_eq_true, decide_eq_true_eq] at h
    obtain ⟨h1, h2⟩ := h
    generalize hn : c.toNat = n at h1 h2 ⊢
    interval_cases n <;> decide
  · simp only [Bool.not_eq_true] at h
    simp [h]

lemma charToLower_idem (c : Char) : charToLower (charToLower c) = charToLower c := by
  show (if charIsUpper (charToLower c) then Char.ofNat ((charToLower c).toNat + 32)
        else charToLower c) = charToLower c
  rw [charIsUpper_charToLower]
  simp

lemma strHasUpper_strToLower (s : String) : strHasUpper (strToLower s) = false := by
  show (s.data.map charToLower).any charIsUpper = false
  rw [List.any_map]
  simp [Function.comp, charIsUpper_charToLower]

lemma strToLower_idem (s : String) : strToLower (strToLower s) = strToLower s := by
  show (⟨(s.data.map charToLower).map charToLower⟩ : String) = ⟨s.data.map charToLower⟩
  rw [List.map_map]
  congr 1
  apply List.map_congr_left
  intro c _
  exact charToLower_idem c

lemma startsWithChars_append (l rest : List Char) :
    startsWithChars l (l ++ rest) = true := by
  induction l with
  | nil => rfl
  | cons c cs ih => simp [startsWithChars, ih]

lemma hasInfixChars_of_startsWith {needle hay : List Char}
    (h : startsWithChars needle hay = true) : hasInfixChars needle hay = true := by
  cases hay with
  | nil => simpa [hasInfixChars] using h
  | cons c cs => simp [hasInfixChars, h]

lemma hasInfixChars_append (needle pre post : List Char) :
    hasInfixChars needle (pre ++ (needle ++ post)) = true := by
  induction pre with
  | nil =>
    simp only [List.nil_append]
    exact hasInfixChars_of_startsWith (startsWithChars_append needle post)
  | cons c cs ih => simp [hasInfixChars, ih]

lemma strContainsSub_append (p b e q : String) :
    strContainsSub (p ++ b ++ e ++ q) (b ++ e) = true := by
  unfold strContainsSub
  rw [String.data_append, String.data_append, String.data_append, String.data_append]
  rw [List.append_assoc p.data b.data e.data]
  rw [List.append_assoc p.data (b.data ++ e.data) q.data]
  exact hasInfixChars_append _ _ _

lemma scoreResultsAligned_applyPreSave (a : Audio) :
    scoreResultsAligned (applyPreSave a) = scoreResultsAligned a := by
  unfold scoreResultsAligned
  rw [applyPreSave_processing, applyPreSave_results]

lemma recordAligned_saveDoc {st st2 : SysState} {a : Audio}
    (hs : saveDoc st a = .ok st2) (ha : scoreResultsAligned a = true) :
    recordAligned st2 = true := by
  unfold saveDoc at hs
  split at hs
  · injection hs with h2
    subst h2
    show scoreResultsAligned (applyPreSave a) = true
    rwa [scoreResultsAligned_applyPreSave]
  · exact absurd hs (by simp)

lemma recordAligned_some {st : SysState} {a : Audio}
    (hrec : st.record = some a) (h : recordAligned st = true) :
    scoreResultsAligned a = true := by
  unfold recordAligned at h
  rw [hrec] at h
  exact h

lemma recordAligned_applyOp (st : SysState) (op : Op) (h : recordAligned st = true) :
    recordAligned (applyOp st op).state = true := by
  cases op with
  | upload f p =>
    cases f with
    | none => simpa [applyOp, uploadAudio] using h
    | some f =>
      simp only [applyOp]
      cases hs : saveDoc st (uploadDoc f p) with
      | ok st2 =>
        have key : (uploadAudio st (some f) p).state = st2 := by
          simp [uploadAudio, hs]
        rw [key]
        exact recordAligned_saveDoc hs rfl
      | error e =>
        have key : (uploadAudio st (some f) p).state =
            { st with files := safeUnlink st.files (some f.path) } := by
          simp [uploadAudio, hs]
        rw [key]
        exact h
  | enhance aid mn gw =>
    simp only [applyOp]
    by_cases h0 : (aid == "") = true
    · simpa [enhanceAudio, h0] using h
    · have h0' : (aid == "") = false := by simpa using h0
      by_cases hv : isValidObjectId aid = true
      · cases hrec : st.record with
        | none => simpa [enhanceAudio, h0', hv, hrec] using h
        | some a =>
          by_cases hsrc : sourceOnDisk st a = true
          · cases gw with
            | error e => simpa [enhanceAudio, h0', hv, hrec, hsrc] using h
            | ok r =>
              cases hs : markEnhanced st a
                  (jsOrStr r.enhancedFilePath (jsOrStr r.enhanced_file_path none))
                  mn r.metrics with
              | error e2 => simpa [enhanceAudio, h0', hv, hrec, hsrc, hs] using h
              | ok st2 =>
                have key : (enhanceAudio st aid mn (.ok r)).state = st2 := by
                  simp [enhanceAudio, h0', hv, hrec, hsrc, hs]
                rw [key]
                unfold markEnhanced at hs
                refine recordAligned_saveDoc hs ?_
                have ha := recordAligned_some hrec h
                simp only [scoreResultsAligned, Bool.and_eq_true] at ha ⊢
                simp_all
          · have hsrc' : sourceOnDisk st a = false := by simpa using hsrc
            simpa [enhanceAudio, h0', hv, hrec, hsrc'] using h
      · have hv' : isValidObjectId aid = false := by simpa using hv
        simpa [enhanceAudio, h0', hv'] using h
  | explain aid gw =>
    simp only [applyOp]
    by_cases h0 : (aid == "") = true
    · simpa [explainDenoising, h0] using h
    · have h0' : (aid == "") = false := by simpa using h0
      by_cases hv : isValidObjectId aid = true
      · cases hrec : st.record with
        | none => simpa [explainDenoising, h0', hv, hrec] using h
        | some a =>
          by_cases hsrc : sourceOnDisk st a = true
          · cases gw with
            | error e => simpa [explainDenoising, h0', hv, hrec, hsrc] using h
            | ok r =>
              cases hs : saveExplainability st a r with
              | error e2 => simpa [explainDenoising, h0', hv, hrec, hsrc, hs] using h
              | ok st2 =>
                have key : (explainDenoising st aid (.ok r)).state = st2 := by
                  simp [explainDenoising, h0', hv, hrec, hsrc, hs]
                rw [key]
                unfold saveExplainability at hs
                refine recordAligned_saveDoc hs ?_
                have ha := recordAligned_some hrec h
                simp only [scoreResultsAligned, Bool.and_eq_true] at ha ⊢
                simp_all
          · have hsrc' : sourceOnDisk st a = false := by simpa using hsrc
            simpa [explainDenoising, h0', hv, hrec, hsrc'] using h
      · have hv' : isValidObjectId aid = false := by simpa using hv
        simpa [explainDenoising, h0', hv'] using h
  | aqi aid gw =>
    simp only [applyOp]
    by_cases h0 : (aid == "") = true
    · simpa [calculateAQI, h0] using h
    · have h0' : (aid == "") = false := by simpa using h0
      by_cases hv : isValidObjectId aid = true
      · cases hrec : st.record with
        | none => simpa [calculateAQI, h0', hv, hrec] using h
        | some a =>
          by_cases hsrc : sourceOnDisk st a = true
          · cases gw with
            | error e => simpa [calculateAQI, h0', hv, hrec, hsrc] using h
            | ok r =>
              cases hs : saveAQI st a r.aqiScore r with
              | error e2 => simpa [calculateAQI, h0', hv, hrec, hsrc, hs] using h
              | ok st2 =>
                have key : (calculateAQI st aid (.ok r)).state = st2 := by
                  simp [calculateAQI, h0', hv, hrec, hsrc, hs]
                rw [key]
                unfold saveAQI at hs
                refine recordAligned_saveDoc hs ?_
                have ha := recordAligned_some hrec h
                simp only [scoreResultsAligned, Bool.and_eq_true] at ha ⊢
                simp_all
          · have hsrc' : sourceOnDisk st a = false := by simpa using hsrc
            simpa [calculateAQI, h0', hv, hrec, hsrc'] using h
      · have hv' : isValidObjectId aid = false := by simpa using hv
        simpa [calculateAQI, h0', hv'] using h
  | forensics aid gw =>
    simp only [applyOp]
    by_cases h0 : (aid == "") = true
    · simpa [detectTampering, h0] using h
    · have h0' : (aid == "") = false := by simpa using h0
      by_cases hv : isValidObjectId aid = true
      · cases hrec : st.record with
        | none => simpa [detectTampering, h0', hv, hrec] using h
        | some a =>
          by_cases hsrc : sourceOnDisk st a = true
          · cases gw with
            | error e => simpa [detectTampering, h0', hv, hrec, hsrc] using h
            | ok r =>
              cases hs : saveForensics st a r.authenticityScore r.tamperingDetected r with
              | error e2 => simpa [detectTampering, h0', hv, hrec, hsrc, hs] using h
              | ok st2 =>
                have key : (detectTampering st aid (.ok r)).state = st2 := by
                  simp [detectTampering, h0', hv, hrec, hsrc, hs]
                rw [key]
                unfold saveForensics at hs
                refine recordAligned_saveDoc hs ?_
                have ha := recordAligned_some hrec h
                simp only [scoreResultsAligned, Bool.and_eq_true] at ha ⊢
                simp_all
          · have hsrc' : sourceOnDisk st a = false := by simpa using hsrc
            simpa [detectTampering, h0', hv, hrec, hsrc'] using h
      · have hv' : isValidObjectId aid = false := by simpa using hv
        simpa [detectTampering, h0', hv'] using h
  | remove id =>
    simp only [applyOp]
    by_cases hv : isValidObjectId id = true
    · cases hrec : st.record with
      | none => simpa [deleteAudio, hv, hrec] using h
      | some a =>
        have key : (deleteAudio st id).state =
            ⟨none, safeUnlink (safeUnlink st.files a.originalPath) a.enhancedPath⟩ := by
          simp [deleteAudio, hv, hrec]
        rw [key]
        rfl
    · have hv' : isValidObjectId id = false := by simpa using hv
      simpa [deleteAudio, hv'] using h

/-! ## Claim theorems -/

/-- Claim C6: an enhancement run on an asset whose source file is absent
from storage fails with the source-missing error (404 "Original audio file
not found on disk.") before anything else happens: the trace is empty (so no
`processing`, `complete` or `error` event is broadcast) and the state — in
particular the asset record — is unchanged. -/
theorem enhance_source_missing_fails_before_events (st : SysState) (aid mn : String)
    (gw : Except JsError EnhanceResult) (a : Audio)
    (h1 : aid ≠ "") (h2 : isValidObjectId aid = true)
    (h3 : st.record = some a) (h4 : sourceOnDisk st a = false) :
    enhanceAudio st aid mn gw =
      ⟨some ⟨404, false, "Original audio file not found on disk."⟩, st, []⟩ := by
  have e1 : (aid == "") = false := beq_eq_false_iff_ne.mpr h1
  simp [enhanceAudio, e1, h2, h3, h4]

/-- Witness for C6: a concrete run on `demoAudio` with its source file gone
from storage. -/
theorem enhance_source_missing_fails_before_events_witness :
    enhanceAudio ⟨some demoAudio, []⟩ demoId "CleanUNet" (.error ⟨"Error", "x"⟩) =
      ⟨some ⟨404, false, "Original audio file not found on disk."⟩,
        ⟨some demoAudio, []⟩, []⟩ :=
  enhance_source_missing_fails_before_events _ _ _ _ demoAudio
    (by decide) (by decide) rfl (by decide)

/-- Claim C4: for every module run whose Gateway call fails (the run reached
the call, i.e. id valid, record present, source on disk), the controller
responds 502 carrying the normalized error's message (the error is re-raised
to the caller, never swallowed), the state — both ProcessingState and
Results — is unchanged, and exactly one `processing` and exactly one `error`
event are broadcast, in that order.  Stated for all four modules. -/
theorem gateway_failure_error_event_and_no_write :
    (∀ (st : SysState) (aid mn : String) (e : JsError) (a : Audio),
      aid ≠ "" → isValidObjectId aid = true → st.record = some a →
      sourceOnDisk st a = true →
      (enhanceAudio st aid mn (.error e)).resp = some ⟨502, false, e.message⟩ ∧
      (enhanceAudio st aid mn (.error e)).state = st ∧
      eventsOf (enhanceAudio st aid mn (.error e)).trace =
        [progressEv "enhance" aid, errorEv "enhance" aid e.message] ∧
      countStatus (eventsOf (enhanceAudio st aid mn (.error e)).trace) .processing = 1 ∧
      countStatus (eventsOf (enhanceAudio st aid mn (.error e)).trace) .error = 1) ∧
    (∀ (st : SysState) (aid : String) (e : JsError) (a : Audio),
      aid ≠ "" → isValidObjectId aid = true → st.record = some a →
      sourceOnDisk st a = true →
      (explainDenoising st aid (.error e)).resp = some ⟨502, false, e.message⟩ ∧
      (explainDenoising st aid (.error e)).state = st ∧
      eventsOf (explainDenoising st aid (.error e)).trace =
        [progressEv "explainability" aid, errorEv "explainability" aid e.message] ∧
      countStatus (eventsOf (explainDenoising st aid (.error e)).trace) .processing = 1 ∧
      countStatus (eventsOf (explainDenoising st aid (.error e)).trace) .error = 1) ∧
    (∀ (st : SysState) (aid : String) (e : JsError) (a : Audio),
      aid ≠ "" → isValidObjectId aid = true → st.record = some a →
      sourceOnDisk st a = true →
      (calculateAQI st aid (.error e)).resp = some ⟨502, false, e.message⟩ ∧
      (calculateAQI st aid (.error e)).state = st ∧
      eventsOf (calculateAQI st aid (.error e)).trace =
        [progressEv "aqi" aid, errorEv "aqi" aid e.message] ∧
      countStatus (eventsOf (calculateAQI st aid (.error e)).trace) .processing = 1 ∧
      countStatus (eventsOf (calculateAQI st aid (.error e)).trace) .error = 1) ∧
    (∀ (st : SysState) (aid : String) (e : JsError) (a : Audio),
      aid ≠ "" → isValidObjectId aid = true → st.record = some a →
      sourceOnDisk st a = true →
      (detectTampering st aid (.error e)).resp = some ⟨502, false, e.message⟩ ∧
      (detectTampering st aid (.error e)).state = st ∧
      eventsOf (detectTampering st aid (.error e)).trace =
        [progressEv "forensics" aid, errorEv "forensics" aid e.message] ∧
      countStatus (eventsOf (detectTampering st aid (.error e)).trace) .processing = 1 ∧
      countStatus (eventsOf (detectTampering st aid (.error e)).trace) .error = 1) := by
  refine ⟨?_, ?_, ?_, ?_⟩ <;>
    (intro st aid
     first
       | (intro mn e a h1 h2 h3 h4)
       | (intro e a h1 h2 h3 h4)) <;>
    (have e1 : (aid == "") = false := beq_eq_false_iff_ne.mpr h1
     refine ⟨?_, ?_, ?_, ?_, ?_⟩ <;>
       simp [enhanceAudio, explainDenoising, calculateAQI, detectTampering,
         e1, h2, h3, h4, eventsOf, countStatus, progressEv, errorEv])

/-- Claim C5: every module run that reaches the Gateway emits its
`processing` event strictly before the Gateway call begins and exactly one
of `complete`/`error` strictly after it resolves (`runTrace121`), with
exactly one event of each kind; and the ordering is stable under
interleaving: in any run-tagged interleaved trace, the projection of the
run's actions still has the 1:1:1 shape. -/
theorem module_run_event_ordering :
    (∀ (st : SysState) (aid mn : String) (gw : Except JsError EnhanceResult) (a : Audio),
      aid ≠ "" → isValidObjectId aid = true → st.record = some a →
      sourceOnDisk st a = true →
      runTrace121 "enhance" aid (enhanceAudio st aid mn gw).trace) ∧
    (∀ (st : SysState) (aid : String) (gw : Except JsError Mixed) (a : Audio),
      aid ≠ "" → isValidObjectId aid = true → st.record = some a →
      sourceOnDisk st a = true →
      runTrace121 "explainability" aid (explainDenoising st aid gw).trace) ∧
    (∀ (st : SysState) (aid : String) (gw : Except JsError AQIResult) (a : Audio),
      aid ≠ "" → isValidObjectId aid = true → st.record = some a →
      sourceOnDisk st a = true →
      runTrace121 "aqi" aid (calculateAQI st aid gw).trace) ∧
    (∀ (st : SysState) (aid : String) (gw : Except JsError ForensicsResult) (a : Audio),
      aid ≠ "" → isValidObjectId aid = true → st.record = some a →
      sourceOnDisk st a = true →
      runTrace121 "forensics" aid (detectTampering st aid gw).trace) ∧
    (∀ (m aid : String) (t : List Action), runTrace121 m aid t →
      countStatus (eventsOf t) .processing = 1 ∧
      countStatus (eventsOf t) .complete + countStatus (eventsOf t) .error = 1) ∧
    (∀ (T : List (Nat × Action)) (r : Nat) (m aid : String) (t : List Action),
      runTrace121 m aid t → projRun T r = t → runTrace121 m aid (projRun T r)) := by
  refine ⟨?_, ?_, ?_, ?_, ?_, ?_⟩
  · intro st aid mn gw a h1 h2 h3 h4
    have e1 : (aid == "") = false := beq_eq_false_iff_ne.mpr h1
    cases gw with
    | error e =>
      have key : (enhanceAudio st aid mn (.error e)).trace =
          [.emit (progressEv "enhance" aid), .callGateway "enhance" aid none,
           .emit (errorEv "enhance" aid e.message)] := by
        simp [enhanceAudio, e1, h2, h3, h4]
      rw [key]
      exact ⟨_, _, Or.inr ⟨_, rfl⟩, rfl⟩
    | ok r =>
      cases hm : markEnhanced st a
          (jsOrStr r.enhancedFilePath (jsOrStr r.enhanced_file_path none)) mn r.metrics with
      | error e2 =>
        have key : (enhanceAudio st aid mn (.ok r)).trace =
            [.emit (progressEv "enhance" aid), .callGateway "enhance" aid none,
             .emit (errorEv "enhance" aid e2.message)] := by
          simp [enhanceAudio, e1, h2, h3, h4, hm]
        rw [key]
        exact ⟨_, _, Or.inr ⟨_, rfl⟩, rfl⟩
      | ok st2 =>
        have key : (enhanceAudio st aid mn (.ok r)).trace =
            [.emit (progressEv "enhance" aid), .callGateway "enhance" aid none,
             .emit (completeEv "enhance" aid)] := by
          simp [enhanceAudio, e1, h2, h3, h4, hm]
        rw [key]
        exact ⟨_, _, Or.inl rfl, rfl⟩
  · intro st aid gw a h1 h2 h3 h4
    have e1 : (aid == "") = false := beq_eq_false_iff_ne.mpr h1
    cases gw with
    | error e =>
      have key : (explainDenoising st aid (.error e)).trace =
          [.emit (progressEv "explainability" aid),
           .callGateway "explainability" aid
             (match a.enhancedPath with
              | some p => if p != "" && st.files.contains p then some p else none
              | none => none),
           .emit (errorEv "explainability" aid e.message)] := by
        simp [explainDenoising, e1, h2, h3, h4]
      rw [key]
      exact ⟨_, _, Or.inr ⟨_, rfl⟩, rfl⟩
    | ok r =>
      cases hm : saveExplainability st a r with
      | error e2 =>
        have key : (explainDenoising st aid (.ok r)).trace =
            [.emit (progressEv "explainability" aid),
             .callGateway "explainability" aid
               (match a.enhancedPath with
                | some p => if p != "" && st.files.contains p then some p else none
                | none => none),
             .emit (errorEv "explainability" aid e2.message)] := by
          simp [explainDenoising, e1, h2, h3, h4, hm]
        rw [key]
        exact ⟨_, _, Or.inr ⟨_, rfl⟩, rfl⟩
      | ok st2 =>
        have key : (explainDenoising st aid (.ok r)).trace =
            [.emit (progressEv "explainability" aid),
             .callGateway "explainability" aid
               (match a.enhancedPath with
                | some p => if p != "" && st.files.contains p then some p else none
                | none => none),
             .emit (completeEv "explainability" aid)] := by
          simp [explainDenoising, e1, h2, h3, h4, hm]
        rw [key]
        exact ⟨_, _, Or.inl rfl, rfl⟩
  · intro st aid gw a h1 h2 h3 h4
    have e1 : (aid == "") = false := beq_eq_false_iff_ne.mpr h1
    cases gw with
    | error e =>
      have key : (calculateAQI st aid (.error e)).trace =
          [.emit (progressEv "aqi" aid), .callGateway "aqi" aid none,
           .emit (errorEv "aqi" aid e.message)] := by
        simp [calculateAQI, e1, h2, h3, h4]
      rw [key]
      exact ⟨_, _, Or.inr ⟨_, rfl⟩, rfl⟩
    | ok r =>
      cases hm : saveAQI st a r.aqiScore r with
      | error e2 =>
        have key : (calculateAQI st aid (.ok r)).trace =
            [.emit (progressEv "aqi" aid), .callGateway "aqi" aid none,
             .emit (errorEv "aqi" aid e2.message)] := by
          simp [calculateAQI, e1, h2, h3, h4, hm]
        rw [key]
        exact ⟨_, _, Or.inr ⟨_, rfl⟩, rfl⟩
      | ok st2 =>
        have key : (calculateAQI st aid (.ok r)).trace =
            [.emit (progressEv "aqi" aid), .callGateway "aqi" aid none,
             .emit (completeEv "aqi" aid)] := by
          simp [calculateAQI, e1, h2, h3, h4, hm]
        rw [key]
        exact ⟨_, _, Or.inl rfl, rfl⟩
  · intro st aid gw a h1 h2 h3 h4
    have e1 : (aid == "") = false := beq_eq_false_iff_ne.mpr h1
    cases gw with
    | error e =>
      have key : (detectTampering st aid (.error e)).trace =
          [.emit (progressEv "forensics" aid), .callGateway "forensics" aid none,
           .emit (errorEv "forensics" aid e.message)] := by
        simp [detectTampering, e1, h2, h3, h4]
      rw [key]
      exact ⟨_, _, Or.inr ⟨_, rfl⟩, rfl⟩
    | ok r =>
      cases hm : saveForensics st a r.authenticityScore r.tamperingDetected r with
      | error e2 =>
        have key : (detectTampering st aid (.ok r)).trace =
            [.emit (progressEv "forensics" aid), .callGateway "forensics" aid none,
             .emit (errorEv "forensics" aid e2.message)] := by
          simp [detectTampering, e1, h2, h3, h4, hm]
        rw [key]
        exact ⟨_, _, Or.inr ⟨_, rfl⟩, rfl⟩
      | ok st2 =>
        have key : (detectTampering st aid (.ok r)).trace =
            [.emit (progressEv "forensics" aid), .callGateway "forensics" aid none,
             .emit (completeEv "forensics" aid)] := by
          simp [detectTampering, e1, h2, h3, h4, hm]
        rw [key]
        exact ⟨_, _, Or.inl rfl, rfl⟩
  · intro m aid t h
    obtain ⟨earg, last, hOr, ht⟩ := h
    subst ht
    rcases hOr with rfl | ⟨msg, rfl⟩ <;>
      simp [countStatus, eventsOf, progressEv, completeEv, errorEv]
  · intro T r m aid t h hp
    rw [hp]
    exact h

/-- Witness for C5: a concrete successful quality-scoring run on
`demoState` produces the 1:1:1 trace. -/
theorem module_run_event_ordering_witness :
    runTrace121 "aqi" demoId (calculateAQI demoState demoId (.ok ⟨87, ⟨"m"⟩⟩)).trace :=
  module_run_event_ordering.2.2.1 demoState demoId (.ok ⟨87, ⟨"m"⟩⟩) demoAudio
    (by decide) (by decide) rfl (by decide)

/-- Witness for C4: a concrete failing forensics run on `demoState`. -/
theorem gateway_failure_error_event_and_no_write_witness :
    (detectTampering demoState demoId (.error ⟨"Error", "boom"⟩)).state = demoState ∧
    eventsOf (detectTampering demoState demoId (.error ⟨"Error", "boom"⟩)).trace =
      [progressEv "forensics" demoId, errorEv "forensics" demoId "boom"] := by
  have h := gateway_failure_error_event_and_no_write.2.2.2 demoState demoId
    ⟨"Error", "boom"⟩ demoAudio (by decide) (by decide) rfl (by decide)
  exact ⟨h.2.1, h.2.2.1⟩

lemma saveAQI_out_of_range (st : SysState) (a : Audio) (r : AQIResult)
    (hr : r.aqiScore < 0 ∨ 100 < r.aqiScore) :
    saveAQI st a r.aqiScore r = .error validationError := by
  unfold saveAQI saveDoc
  split
  · rename_i hval
    have hb := (validateAudio_scores hval).1
    have := optInRange_some (s := r.aqiScore) hb
    omega
  · rfl

lemma saveForensics_out_of_range (st : SysState) (a : Audio) (r : ForensicsResult)
    (hr : r.authenticityScore < 0 ∨ 100 < r.authenticityScore) :
    saveForensics st a r.authenticityScore r.tamperingDetected r = .error validationError := by
  unfold saveForensics saveDoc
  split
  · rename_i hval
    have hb := (validateAudio_scores hval).2
    have := optInRange_some (s := r.authenticityScore) hb
    omega
  · rfl

/-- Claim C1 (counterexample): the orchestrator does *not* clamp
out-of-range Gateway scores to [0, 100] before persistence.  On a concrete
quality run returning 105 (and a forensics run returning −3) the save is
rejected by schema validation: the run fails with a 502 carrying the
validation error, nothing is persisted (the stored score stays null — in
particular it is not the clamped 100), and `respOk` is false. -/
theorem score_clamping_counterexample :
    ((calculateAQI demoState demoId (.ok ⟨105, ⟨"m"⟩⟩)).state.record.map
        fun a => a.processing.aqiScore) = some none ∧
    respOk (calculateAQI demoState demoId (.ok ⟨105, ⟨"m"⟩⟩)) = false ∧
    (calculateAQI demoState demoId (.ok ⟨105, ⟨"m"⟩⟩)).resp =
      some ⟨502, false, "Audio validation failed"⟩ ∧
    ((detectTampering demoState demoId (.ok ⟨-3, false, ⟨"f"⟩⟩)).state.record.map
        fun a => a.processing.authenticityScore) = some none ∧
    respOk (detectTampering demoState demoId (.ok ⟨-3, false, ⟨"f"⟩⟩)) = false := by
  decide

/-- Claim C1 (amended): every quality-scoring or forensics run that succeeds
persists a score in [0, 100] — not because the orchestrator clamps (it does
not), but because the schema's min/max validation rejects any out-of-range
score, making the whole run fail with no write.  The last two conjuncts
state the rejection explicitly: an out-of-range Gateway score leaves the
state unchanged and the run unsuccessful. -/
theorem persisted_scores_in_range :
    (∀ (st : SysState) (aid : String) (gw : Except JsError AQIResult),
      respOk (calculateAQI st aid gw) = true →
      ∃ a s, (calculateAQI st aid gw).state.record = some a ∧
        a.processing.aqiScore = some s ∧ 0 ≤ s ∧ s ≤ 100) ∧
    (∀ (st : SysState) (aid : String) (gw : Except JsError ForensicsResult),
      respOk (detectTampering st aid gw) = true →
      ∃ a s, (detectTampering st aid gw).state.record = some a ∧
        a.processing.authenticityScore = some s ∧ 0 ≤ s ∧ s ≤ 100) ∧
    (∀ (st : SysState) (aid : String) (r : AQIResult),
      (r.aqiScore < 0 ∨ 100 < r.aqiScore) →
      (calculateAQI st aid (.ok r)).state = st ∧
      respOk (calculateAQI st aid (.ok r)) = false) ∧
    (∀ (st : SysState) (aid : String) (r : ForensicsResult),
      (r.authenticityScore < 0 ∨ 100 < r.authenticityScore) →
      (detectTampering st aid (.ok r)).state = st ∧
      respOk (detectTampering st aid (.ok r)) = false) := by
  refine ⟨?_, ?_, ?_, ?_⟩
  · intro st aid gw h
    by_cases h0 : (aid == "") = true
    · exfalso; simp [calculateAQI, h0, respOk] at h
    · have h0' : (aid == "") = false := by simpa using h0
      by_cases hv : isValidObjectId aid = true
      · cases hrec : st.record with
        | none => exfalso; simp [calculateAQI, h0', hv, hrec, respOk] at h
        | some a =>
          by_cases hsrc : sourceOnDisk st a = true
          · cases hgw : gw with
            | error e =>
              exfalso
              rw [hgw] at h
              simp [calculateAQI, h0', hv, hrec, hsrc, respOk] at h
            | ok r =>
              rw [hgw] at h
              cases hs : saveAQI st a r.aqiScore r with
              | error e2 =>
                exfalso
                simp [calculateAQI, h0', hv, hrec, hsrc, hs, respOk] at h
              | ok st2 =>
                have key : (calculateAQI st aid (.ok r)).state = st2 := by
                  simp [calculateAQI, h0', hv, hrec, hsrc, hs]
                unfold saveAQI saveDoc at hs
                split at hs
                · rename_i hval
                  injection hs with hs2
                  subst hs2
                  refine ⟨applyPreSave
                    { a with
                      processing := { a.processing with aqiScore := some r.aqiScore }
                      results := { a.results with aqi := some r } },
                    r.aqiScore, ?_, ?_, ?_, ?_⟩
                  · rw [key]
                  · rw [applyPreSave_processing]
                  · exact (optInRange_some (s := r.aqiScore) (validateAudio_scores hval).1).1
                  · exact (optInRange_some (s := r.aqiScore) (validateAudio_scores hval).1).2
                · exact absurd hs (by simp)
          · have hsrc' : sourceOnDisk st a = false := by simpa using hsrc
            exfalso; simp [calculateAQI, h0', hv, hrec, hsrc', respOk] at h
      · have hv' : isValidObjectId aid = false := by simpa using hv
        exfalso; simp [calculateAQI, h0', hv', respOk] at h
  · intro st aid gw h
    by_cases h0 : (aid == "") = true
    · exfalso; simp [detectTampering, h0, respOk] at h
    · have h0' : (aid == "") = false := by simpa using h0
      by_cases hv : isValidObjectId aid = true
      · cases hrec : st.record with
        | none => exfalso; simp [detectTampering, h0', hv, hrec, respOk] at h
        | some a =>
          by_cases hsrc : sourceOnDisk st a = true
          · cases hgw : gw with
            | error e =>
              exfalso
              rw [hgw] at h
              simp [detectTampering, h0', hv, hrec, hsrc, respOk] at h
            | ok r =>
              rw [hgw] at h
              cases hs : saveForensics st a r.authenticityScore r.tamperingDetected r with
              | error e2 =>
                exfalso
                simp [detectTampering, h0', hv, hrec, hsrc, hs, respOk] at h
              | ok st2 =>
                have key : (detectTampering st aid (.ok r)).state = st2 := by
                  simp [detectTampering, h0', hv, hrec, hsrc, hs]
                unfold saveForensics saveDoc at hs
                split at hs
                · rename_i hval
                  injection hs with hs2
                  subst hs2
                  refine ⟨applyPreSave
                    { a with
                      processing :=
                        { a.processing with
                          authenticityScore := some r.authenticityScore
                          tamperingDetected := some r.tamperingDetected }
                      results := { a.results with forensics := some r } },
                    r.authenticityScore, ?_, ?_, ?_, ?_⟩
                  · rw [key]
                  · rw [applyPreSave_processing]
                  · exact (optInRange_some (s := r.authenticityScore)
                      (validateAudio_scores hval).2).1
                  · exact (optInRange_some (s := r.authenticityScore)
                      (validateAudio_scores hval).2).2
                · exact absurd hs (by simp)
          · have hsrc' : sourceOnDisk st a = false := by simpa using hsrc
            exfalso; simp [detectTampering, h0', hv, hrec, hsrc', respOk] at h
      · have hv' : isValidObjectId aid = false := by simpa using hv
        exfalso; simp [detectTampering, h0', hv', respOk] at h
  · intro st aid r hr
    by_cases h0 : (aid == "") = true
    · constructor <;> simp [calculateAQI, h0, respOk]
    · have h0' : (aid == "") = false := by simpa using h0
      by_cases hv : isValidObjectId aid = true
      · cases hrec : st.record with
        | none => constructor <;> simp [calculateAQI, h0', hv, hrec, respOk]
        | some a =>
          by_cases hsrc : sourceOnDisk st a = true
          · have hs := saveAQI_out_of_range st a r hr
            constructor <;> simp [calculateAQI, h0', hv, hrec, hsrc, hs, respOk]
          · have hsrc' : sourceOnDisk st a = false := by simpa using hsrc
            constructor <;> simp [calculateAQI, h0', hv, hrec, hsrc', respOk]
      · have hv' : isValidObjectId aid = false := by simpa using hv
        constructor <;> simp [calculateAQI, h0', hv', respOk]
  · intro st aid r hr
    by_cases h0 : (aid == "") = true
    · constructor <;> simp [detectTampering, h0, respOk]
    · have h0' : (aid == "") = false := by simpa using h0
      by_cases hv : isValidObjectId aid = true
      · cases hrec : st.record with
        | none => constructor <;> simp [detectTampering, h0', hv, hrec, respOk]
        | some a =>
          by_cases hsrc : sourceOnDisk st a = true
          · have hs := saveForensics_out_of_range st a r hr
            constructor <;> simp [detectTampering, h0', hv, hrec, hsrc, hs, respOk]
          · have hsrc' : sourceOnDisk st a = false := by simpa using hsrc
            constructor <;> simp [detectTampering, h0', hv, hrec, hsrc', respOk]
      · have hv' : isValidObjectId aid = false := by simpa using hv
        constructor <;> simp [detectTampering, h0', hv', respOk]

/-- Witness for the amended C1: a concrete in-range quality run. -/
theorem persisted_scores_in_range_witness :
    ∃ a s, (calculateAQI demoState demoId (.ok ⟨87, ⟨"m"⟩⟩)).state.record = some a ∧
      a.processing.aqiScore = some s ∧ 0 ≤ s ∧ s ≤ 100 :=
  persisted_scores_in_range.1 demoState demoId (.ok ⟨87, ⟨"m"⟩⟩) (by decide)

/-- Claim C2 (counterexample): the set-iff-non-null alignment fails for the
enhancement module.  A successful enhancement run whose gateway payload
carries no `metrics` persists `processing.enhanced = true` while
`results.enhancement` stays null — the flag is set although the Results
entry is null. -/
theorem processing_results_iff_counterexample :
    ((enhanceAudio demoState demoId "CleanUNet"
        (.ok ⟨some "/uploads/enh.wav", none, none⟩)).state.record.map
      fun a => (a.processing.enhanced, a.results.enhancement.isSome)) =
        some (true, false) ∧
    respOk (enhanceAudio demoState demoId "CleanUNet"
        (.ok ⟨some "/uploads/enh.wav", none, none⟩)) = true := by
  decide

/-- Claim C2 (amended): each completion method updates its ProcessingState
fields and its Results entry together in one atomic `save`, and the
alignment that actually holds over every operation sequence is: quality
score set iff `results.aqi` non-null, forensics score and flag set iff
`results.forensics` non-null, and `results.enhancement` non-null implies
the enhanced flag (the converse fails when the gateway omits `metrics`,
and ProcessingState has no explainability field at all). -/
theorem processing_results_alignment (st : SysState) (ops : List Op)
    (h : recordAligned st = true) : recordAligned (applyOps st ops) = true := by
  induction ops generalizing st with
  | nil => exact h
  | cons op rest ih => exact ih _ (recordAligned_applyOp st op h)

/-- Witness for the amended C2: a concrete sequence of completion runs on
`demoState` keeps the alignment. -/
theorem processing_results_alignment_witness :
    recordAligned (applyOps demoState
      [.aqi demoId (.ok ⟨87, ⟨"m"⟩⟩),
       .forensics demoId (.ok ⟨95, false, ⟨"f"⟩⟩),
       .enhance demoId "CleanUNet" (.ok ⟨some "/uploads/enh.wav", none, some ⟨"e"⟩⟩)]) =
      true :=
  processing_results_alignment demoState _ (by decide)

/-- Claim C3 (counterexample): the orchestrator persists whatever enhanced
path the Gateway returns without checking that the file exists.  A concrete
successful enhancement run stores "/uploads/enhanced.wav" although no such
file is in storage at the time it is set. -/
theorem enhancedPath_existence_counterexample :
    ((enhanceAudio demoState demoId "CleanUNet"
        (.ok ⟨some "/uploads/enhanced.wav", none, some ⟨"e"⟩⟩)).state.record.map
      fun a => a.enhancedPath) = some (some "/uploads/enhanced.wav") ∧
    (enhanceAudio demoState demoId "CleanUNet"
        (.ok ⟨some "/uploads/enhanced.wav", none, some ⟨"e"⟩⟩)).state.files.contains
        "/uploads/enhanced.wav" = false ∧
    respOk (enhanceAudio demoState demoId "CleanUNet"
        (.ok ⟨some "/uploads/enhanced.wav", none, some ⟨"e"⟩⟩)) = true := by
  decide

/-- Claim C3 (amended): the enhanced-file location is assigned only by a
successful run of the enhancement module — registration creates it null and
every other operation preserves it — but the code performs no existence
check on the path: a successful enhancement run stores exactly the path the
Gateway returned (`enhancedFilePath || enhanced_file_path || null`), whether
or not that file exists in storage. -/
theorem enhancedPath_set_only_by_enhancement :
    (∀ (st : SysState) (f : Option ReqFile) (p : Except JsError ProbeMeta) (a : Audio),
      (uploadAudio st f p).state.record = some a →
      st.record = some a ∨ a.enhancedPath = none) ∧
    (∀ (st : SysState) (aid : String) (gw : Except JsError Mixed) (a0 a : Audio),
      st.record = some a0 → (explainDenoising st aid gw).state.record = some a →
      a.enhancedPath = a0.enhancedPath) ∧
    (∀ (st : SysState) (aid : String) (gw : Except JsError AQIResult) (a0 a : Audio),
      st.record = some a0 → (calculateAQI st aid gw).state.record = some a →
      a.enhancedPath = a0.enhancedPath) ∧
    (∀ (st : SysState) (aid : String) (gw : Except JsError ForensicsResult) (a0 a : Audio),
      st.record = some a0 → (detectTampering st aid gw).state.record = some a →
      a.enhancedPath = a0.enhancedPath) ∧
    (∀ (st : SysState) (id : String) (a0 a : Audio),
      st.record = some a0 → (deleteAudio st id).state.record = some a →
      a.enhancedPath = a0.enhancedPath) ∧
    (∀ (st : SysState) (aid mn : String) (gw : Except JsError EnhanceResult) (a0 a : Audio),
      st.record = some a0 → (enhanceAudio st aid mn gw).state.record = some a →
      a.enhancedPath = a0.enhancedPath ∨
      (respOk (enhanceAudio st aid mn gw) = true ∧ ∃ r, gw = Except.ok r ∧
        a.enhancedPath = jsOrStr r.enhancedFilePath (jsOrStr r.enhanced_file_path none))) := by
  refine ⟨?_, ?_, ?_, ?_, ?_, ?_⟩
  · intro st f p a h2
    cases f with
    | none =>
      left
      simpa [uploadAudio] using h2
    | some f =>
      cases hs : saveDoc st (uploadDoc f p) with
      | ok st2 =>
        right
        have hst : (uploadAudio st (some f) p).state = st2 := by simp [uploadAudio, hs]
        rw [hst] at h2
        unfold saveDoc at hs
        split at hs
        · injection hs with h3
          subst h3
          simp only [Option.some.injEq] at h2
          rw [← h2, applyPreSave_enhancedPath]
          rfl
        · exact absurd hs (by simp)
      | error e =>
        left
        have hst : (uploadAudio st (some f) p).state =
            { st with files := safeUnlink st.files (some f.path) } := by
          simp [uploadAudio, hs]
        rw [hst] at h2
        exact h2
  · intro st aid gw a0 a h1 h2
    by_cases h0 : (aid == "") = true
    · have hst : (explainDenoising st aid gw).state = st := by simp [explainDenoising, h0]
      rw [hst, h1] at h2
      injection h2 with h3
      rw [← h3]
    · have h0' : (aid == "") = false := by simpa using h0
      by_cases hv : isValidObjectId aid = true
      · by_cases hsrc : sourceOnDisk st a0 = true
        · cases gw with
          | error e =>
            have hst : (explainDenoising st aid (.error e)).state = st := by
              simp [explainDenoising, h0', hv, h1, hsrc]
            rw [hst, h1] at h2
            injection h2 with h3
            rw [← h3]
          | ok r =>
            cases hs : saveExplainability st a0 r with
            | error e2 =>
              have hst : (explainDenoising st aid (.ok r)).state = st := by
                simp [explainDenoising, h0', hv, h1, hsrc, hs]
              rw [hst, h1] at h2
              injection h2 with h3
              rw [← h3]
            | ok st2 =>
              have hst : (explainDenoising st aid (.ok r)).state = st2 := by
                simp [explainDenoising, h0', hv, h1, hsrc, hs]
              rw [hst] at h2
              unfold saveExplainability saveDoc at hs
              split at hs
              · injection hs with h3
                subst h3
                simp only [Option.some.injEq] at h2
                rw [← h2, applyPreSave_enhancedPath]
              · exact absurd hs (by simp)
        · have hsrc' : sourceOnDisk st a0 = false := by simpa using hsrc
          have hst : (explainDenoising st aid gw).state = st := by
            simp [explainDenoising, h0', hv, h1, hsrc']
          rw [hst, h1] at h2
          injection h2 with h3
          rw [← h3]
      · have hv' : isValidObjectId aid = false := by simpa using hv
        have hst : (explainDenoising st aid gw).state = st := by
          simp [explainDenoising, h0', hv']
        rw [hst, h1] at h2
        injection h2 with h3
        rw [← h3]
  · intro st aid gw a0 a h1 h2
    by_cases h0 : (aid == "") = true
    · have hst : (calculateAQI st aid gw).state = st := by simp [calculateAQI, h0]
      rw [hst, h1] at h2
      injection h2 with h3
      rw [← h3]
    · have h0' : (aid == "") = false := by simpa using h0
      by_cases hv : isValidObjectId aid = true
      · by_cases hsrc : sourceOnDisk st a0 = true
        · cases gw with
          | error e =>
            have hst : (calculateAQI st aid (.error e)).state = st := by
              simp [calculateAQI, h0', hv, h1, hsrc]
            rw [hst, h1] at h2
            injection h2 with h3
            rw [← h3]
          | ok r =>
            cases hs : saveAQI st a0 r.aqiScore r with
            | error e2 =>
              have hst : (calculateAQI st aid (.ok r)).state = st := by
                simp [calculateAQI, h0', hv, h1, hsrc, hs]
              rw [hst, h1] at h2
              injection h2 with h3
              rw [← h3]
            | ok st2 =>
              have hst : (calculateAQI st aid (.ok r)).state = st2 := by
                simp [calculateAQI, h0', hv, h1, hsrc, hs]
              rw [hst] at h2
              unfold saveAQI saveDoc at hs
              split at hs
              · injection hs with h3
                subst h3
                simp only [Option.some.injEq] at h2
                rw [← h2, applyPreSave_enhancedPath]
              · exact absurd hs (by simp)
        · have hsrc' : sourceOnDisk st a0 = false := by simpa using hsrc
          have hst : (calculateAQI st aid gw).state = st := by
            simp [calculateAQI, h0', hv, h1, hsrc']
          rw [hst, h1] at h2
          injection h2 with h3
          rw [← h3]
      · have hv' : isValidObjectId aid = false := by simpa using hv
        have hst : (calculateAQI st aid gw).state = st := by
          simp [calculateAQI, h0', hv']
        rw [hst, h1] at h2
        injection h2 with h3
        rw [← h3]
  · intro st aid gw a0 a h1 h2
    by_cases h0 : (aid == "") = true
    · have hst : (detectTampering st aid gw).state = st := by simp [detectTampering, h0]
      rw [hst, h1] at h2
      injection h2 with h3
      rw [← h3]
    · have h0' : (aid == "") = false := by simpa using h0
      by_cases hv : isValidObjectId aid = true
      · by_cases hsrc : sourceOnDisk st a0 = true
        · cases gw with
          | error e =>
            have hst : (detectTampering st aid (.error e)).state = st := by
              simp [detectTampering, h0', hv, h1, hsrc]
            rw [hst, h1] at h2
            injection h2 with h3
            rw [← h3]
          | ok r =>
            cases hs : saveForensics st a0 r.authenticityScore r.tamperingDetected r with
            | error e2 =>
              have hst : (detectTampering st aid (.ok r)).state = st := by
                simp [detectTampering, h0', hv, h1, hsrc, hs]
              rw [hst, h1] at h2
              injection h2 with h3
              rw [← h3]
            | ok st2 =>
              have hst : (detectTampering st aid (.ok r)).state = st2 := by
                simp [detectTampering, h0', hv, h1, hsrc, hs]
              rw [hst] at h2
              unfold saveForensics saveDoc at hs
              split at hs
              · injection hs with h3
                subst h3
                simp only [Option.some.injEq] at h2
                rw [← h2, applyPreSave_enhancedPath]
              · exact absurd hs (by simp)
        · have hsrc' : sourceOnDisk st a0 = false := by simpa using hsrc
          have hst : (detectTampering st aid gw).state = st := by
            simp [detectTampering, h0', hv, h1, hsrc']
          rw [hst, h1] at h2
          injection h2 with h3
          rw [← h3]
      · have hv' : isValidObjectId aid = false := by simpa using hv
        have hst : (detectTampering st aid gw).state = st := by
          simp [detectTampering, h0', hv']
        rw [hst, h1] at h2
        injection h2 with h3
        rw [← h3]
  · intro st id a0 a h1 h2
    by_cases hv : isValidObjectId id = true
    · have hst : (deleteAudio st id).state =
          ⟨none, safeUnlink (safeUnlink st.files a0.originalPath) a0.enhancedPath⟩ := by
        simp [deleteAudio, hv, h1]
      rw [hst] at h2
      exact absurd h2 (by simp)
    · have hv' : isValidObjectId id = false := by simpa using hv
      have hst : (deleteAudio st id).state = st := by simp [deleteAudio, hv']
      rw [hst, h1] at h2
      injection h2 with h3
      rw [← h3]
  · intro st aid mn gw a0 a h1 h2
    by_cases h0 : (aid == "") = true
    · left
      have hst : (enhanceAudio st aid mn gw).state = st := by simp [enhanceAudio, h0]
      rw [hst, h1] at h2
      injection h2 with h3
      rw [← h3]
    · have h0' : (aid == "") = false := by simpa using h0
      by_cases hv : isValidObjectId aid = true
      · by_cases hsrc : sourceOnDisk st a0 = true
        · cases gw with
          | error e =>
            left
            have hst : (enhanceAudio st aid mn (.error e)).state = st := by
              simp [enhanceAudio, h0', hv, h1, hsrc]
            rw [hst, h1] at h2
            injection h2 with h3
            rw [← h3]
          | ok r =>
            cases hs : markEnhanced st a0
                (jsOrStr r.enhancedFilePath (jsOrStr r.enhanced_file_path none))
                mn r.metrics with
            | error e2 =>
              left
              have hst : (enhanceAudio st aid mn (.ok r)).state = st := by
                simp [enhanceAudio, h0', hv, h1, hsrc, hs]
              rw [hst, h1] at h2
              injection h2 with h3
              rw [← h3]
            | ok st2 =>
              right
              have hresp : respOk (enhanceAudio st aid mn (.ok r)) = true := by
                simp [enhanceAudio, h0', hv, h1, hsrc, hs, respOk]
              refine ⟨hresp, r, rfl, ?_⟩
              have hst : (enhanceAudio st aid mn (.ok r)).state = st2 := by
                simp [enhanceAudio, h0', hv, h1, hsrc, hs]
              rw [hst] at h2
              unfold markEnhanced saveDoc at hs
              split at hs
              · injection hs with h3
                subst h3
                simp only [Option.some.injEq] at h2
                rw [← h2, applyPreSave_enhancedPath]
              · exact absurd hs (by simp)
        · left
          have hsrc' : sourceOnDisk st a0 = false := by simpa using hsrc
          have hst : (enhanceAudio st aid mn gw).state = st := by
            simp [enhanceAudio, h0', hv, h1, hsrc']
          rw [hst, h1] at h2
          injection h2 with h3
          rw [← h3]
      · left
        have hv' : isValidObjectId aid = false := by simpa using hv
        have hst : (enhanceAudio st aid mn gw).state = st := by
          simp [enhanceAudio, h0', hv']
        rw [hst, h1] at h2
        injection h2 with h3
        rw [← h3]

/-- Witness for the amended C3: a successful quality run on `demoState`
leaves the enhanced-file location unchanged. -/
theorem enhancedPath_set_only_by_enhancement_witness :
    demoAudioAfterAQI.enhancedPath = demoAudio.enhancedPath :=
  enhancedPath_set_only_by_enhancement.2.2.1 demoState demoId (.ok ⟨87, ⟨"m"⟩⟩)
    demoAudio demoAudioAfterAQI rfl (by decide)

/-- Claim C7 (counterexample): the Gateway does not surface a typed error
taxonomy.  A client-side timeout on the forensics endpoint is thrown as a
plain `Error` (name "Error"), not as a `TimeoutError`; likewise
connection-refused is not a `ServiceUnavailableError` and a non-2xx
response is not an `UpstreamError`. -/
theorem gateway_error_taxonomy_counterexample :
    (handlePythonError "http://localhost:8000" .connAborted "/forensics").name =
      "Error" ∧
    (handlePythonError "http://localhost:8000" .connAborted "/forensics").name ≠
      "TimeoutError" ∧
    (handlePythonError "http://localhost:8000" .connRefused "/forensics").name ≠
      "ServiceUnavailableError" ∧
    (handlePythonError "http://localhost:8000"
        (.httpResponse 500 none none) "/forensics").name ≠ "UpstreamError" := by
  decide

/-- Claim C7 (amended): every normalized transport failure is thrown as a
plain `Error` distinguished only by its message, and the messages carry the
required naming: connection-refused names the unreachable endpoint
(base URL ++ endpoint occurs in the message), a non-2xx response carries the
remote `data.message` when the remote supplied one (else `data.error`, else
a fallback naming the remote status and endpoint), and a timeout names the
endpoint — in particular a forensics timeout message contains
"forensics". -/
theorem gateway_error_normalization_messages :
    ∀ (baseUrl endpoint : String) (s : Nat) (dm de : Option String),
      handlePythonError baseUrl .connRefused endpoint =
        ⟨"Error", "Python service is not reachable at " ++ baseUrl ++ endpoint ++
          ". Is it running?"⟩ ∧
      handlePythonError baseUrl .connAborted endpoint =
        ⟨"Error", "Python service timed out on " ++ endpoint ++
          ". Try a shorter audio file."⟩ ∧
      (handlePythonError baseUrl (.httpResponse s dm de) endpoint).name = "Error" ∧
      (handlePythonError baseUrl (.httpResponse s none none) endpoint).message =
        "Python service error " ++ toString s ++ " on " ++ endpoint ∧
      strContainsSub (handlePythonError baseUrl .connAborted "/forensics").message
        "forensics" = true ∧
      strContainsSub (handlePythonError baseUrl .connRefused endpoint).message
        (baseUrl ++ endpoint) = true ∧
      (∀ m, m ≠ "" →
        (handlePythonError baseUrl (.httpResponse s (some m) de) endpoint).message = m) ∧
      (∀ m, m ≠ "" →
        (handlePythonError baseUrl (.httpResponse s none (some m)) endpoint).message = m) ∧
      (handlePythonError baseUrl (.httpResponse s (some "") de) endpoint).message =
        (handlePythonError baseUrl (.httpResponse s none de) endpoint).message := by
  intro baseUrl endpoint s dm de
  refine ⟨rfl, rfl, rfl, rfl, ?_, ?_, ?_, ?_, ?_⟩
  · simp only [handlePythonError]
    decide
  · simp only [handlePythonError]
    exact strContainsSub_append "Python service is not reachable at " baseUrl endpoint
      ". Is it running?"
  · intro m hm
    simp [handlePythonError, jsOrStr, hm]
  · intro m hm
    simp [handlePythonError, jsOrStr, hm]
  · simp [handlePythonError, jsOrStr]

/-- Witness for the amended C7: a concrete non-2xx response whose remote
`data.message` is non-empty surfaces that message verbatim. -/
theorem gateway_error_normalization_messages_witness :
    (handlePythonError "http://localhost:8000"
        (.httpResponse 500 (some "Bad model") none) "/aqi").message = "Bad model" :=
  (gateway_error_normalization_messages "http://localhost:8000" "/aqi" 500
    (some "Bad model") none).2.2.2.2.2.2.1 "Bad model" (by decide)

/-- Claim C8 (counterexample): when the record save fails after the file was
written, `uploadAudio` does *not* leave the source file untouched: it rolls
it back with `safeUnlink`.  A concrete registration whose document fails
validation (empty original filename) removes the written file from
storage. -/
theorem upload_cleanup_counterexample :
    (uploadAudio ⟨none, ["/uploads/x.wav"]⟩ (some ⟨"/uploads/x.wav", "", 120000⟩)
        (.ok {})).state.files = [] ∧
    (uploadAudio ⟨none, ["/uploads/x.wav"]⟩ (some ⟨"/uploads/x.wav", "", 120000⟩)
        (.ok {})).resp = some ⟨500, false, "Upload processing failed."⟩ := by
  decide

/-- Claim C8 (amended): on every registration whose record save fails, the
controller itself performs the source-file cleanup: it responds 500, leaves
the record store unchanged, and removes the written file via `safeUnlink`
(rather than leaving the orphan to the upload middleware). -/
theorem upload_failure_unlinks_file :
    ∀ (st : SysState) (f : ReqFile) (p : Except JsError ProbeMeta),
      respOk (uploadAudio st (some f) p) = false →
      (uploadAudio st (some f) p).resp =
        some ⟨500, false, "Upload processing failed."⟩ ∧
      (uploadAudio st (some f) p).state.record = st.record ∧
      (uploadAudio st (some f) p).state.files = safeUnlink st.files (some f.path) := by
  intro st f p h
  cases hs : saveDoc st (uploadDoc f p) with
  | ok st2 =>
    exfalso
    simp [uploadAudio, hs, respOk] at h
  | error e =>
    refine ⟨?_, ?_, ?_⟩ <;> simp [uploadAudio, hs]

/-- Witness for the amended C8: the concrete failing registration removes
the written file. -/
theorem upload_failure_unlinks_file_witness :
    (uploadAudio ⟨none, ["/uploads/x.wav"]⟩ (some ⟨"/uploads/x.wav", "", 120000⟩)
        (.ok {})).state.files = safeUnlink ["/uploads/x.wav"] (some "/uploads/x.wav") :=
  (upload_failure_unlinks_file ⟨none, ["/uploads/x.wav"]⟩
    ⟨"/uploads/x.wav", "", 120000⟩ (.ok {}) (by decide)).2.2

/-- Claim C9: every successful upload registration creates the asset with
all processing flags false/null (`enhanced = false`, `enhancementModel`,
`aqiScore`, `authenticityScore`, `tamperingDetected` all null), all four
Results entries null, and a null enhanced path. -/
theorem upload_initial_state_null :
    ∀ (st : SysState) (f : ReqFile) (p : Except JsError ProbeMeta) (a : Audio),
      respOk (uploadAudio st (some f) p) = true →
      (uploadAudio st (some f) p).state.record = some a →
      a.processing.enhanced = false ∧ a.processing.enhancementModel = none ∧
      a.processing.aqiScore = none ∧ a.processing.authenticityScore = none ∧
      a.processing.tamperingDetected = none ∧
      a.results.enhancement = none ∧ a.results.explainability = none ∧
      a.results.aqi = none ∧ a.results.forensics = none ∧
      a.enhancedPath = none := by
  intro st f p a h h2
  cases hs : saveDoc st (uploadDoc f p) with
  | error e =>
    exfalso
    simp [uploadAudio, hs, respOk] at h
  | ok st2 =>
    have hst : (uploadAudio st (some f) p).state = st2 := by simp [uploadAudio, hs]
    rw [hst] at h2
    unfold saveDoc at hs
    split at hs
    · injection hs with h3
      subst h3
      simp only [Option.some.injEq] at h2
      rw [← h2, applyPreSave_processing, applyPreSave_results, applyPreSave_enhancedPath]
      exact ⟨rfl, rfl, rfl, rfl, rfl, rfl, rfl, rfl, rfl, rfl⟩
    · exact absurd hs (by simp)

/-- Witness for C9: the concrete successful registration of "clip.wav"
produces exactly `demoAudio`, whose flags and results are all false/null. -/
theorem upload_initial_state_null_witness :
    demoAudio.processing.enhanced = false ∧ demoAudio.processing.enhancementModel = none ∧
    demoAudio.processing.aqiScore = none ∧ demoAudio.processing.authenticityScore = none ∧
    demoAudio.processing.tamperingDetected = none ∧
    demoAudio.results.enhancement = none ∧ demoAudio.results.explainability = none ∧
    demoAudio.results.aqi = none ∧ demoAudio.results.forensics = none ∧
    demoAudio.enhancedPath = none :=
  upload_initial_state_null ⟨none, ["/uploads/clip.wav"]⟩
    ⟨"/uploads/clip.wav", "clip.wav", 120000⟩ (.ok {}) demoAudio
    (by decide) (by decide)

lemma formatNoUpper_applyPreSave (a : Audio) (s : String)
    (h : (applyPreSave a).format = some s) : strHasUpper s = false := by
  unfold applyPreSave at h
  cases hf : a.format with
  | none => simp [hf] at h
  | some f0 =>
    simp only [hf] at h
    by_cases hf0 : (f0 == "") = true
    · rw [if_pos hf0] at h
      rw [hf] at h
      injection h with h2
      have hz : f0 = "" := by simpa using hf0
      rw [← h2, hz]
      decide
    · rw [if_neg hf0] at h
      simp only [Option.some.injEq] at h
      rw [← h]
      exact strHasUpper_strToLower f0

/-- Claim C10: the stored container format never contains an uppercase
letter: the pre-save hook lowercases any truthy format on every save (first
conjunct); hence every successfully saved record has a null or
uppercase-free format (second conjunct); and registration stores exactly
the lowercased filename extension (third conjunct). -/
theorem stored_format_lowercase :
    (∀ (a : Audio) (s : String), (applyPreSave a).format = some s →
      strHasUpper s = false) ∧
    (∀ (st st2 : SysState) (a a2 : Audio), saveDoc st a = .ok st2 →
      st2.record = some a2 →
      a2.format = none ∨ ∃ s, a2.format = some s ∧ strHasUpper s = false) ∧
    (∀ (st : SysState) (f : ReqFile) (p : Except JsError ProbeMeta) (a : Audio),
      (uploadAudio st (some f) p).state.record = some a →
      respOk (uploadAudio st (some f) p) = true →
      a.format = some (strToLower (removeFirstDot (extname f.originalname)))) := by
  refine ⟨formatNoUpper_applyPreSave, ?_, ?_⟩
  · intro st st2 a a2 hs h2
    unfold saveDoc at hs
    split at hs
    · injection hs with h3
      subst h3
      simp only [Option.some.injEq] at h2
      cases hf : (applyPreSave a).format with
      | none =>
        left
        rw [← h2]
        exact hf
      | some s =>
        right
        exact ⟨s, by rw [← h2]; exact hf, formatNoUpper_applyPreSave a s hf⟩
    · exact absurd hs (by simp)
  · intro st f p a h2 h
    cases hs : saveDoc st (uploadDoc f p) with
    | error e =>
      exfalso
      simp [uploadAudio, hs, respOk] at h
    | ok st2 =>
      have hst : (uploadAudio st (some f) p).state = st2 := by simp [uploadAudio, hs]
      rw [hst] at h2
      unfold saveDoc at hs
      split at hs
      · injection hs with h3
        subst h3
        simp only [Option.some.injEq] at h2
        rw [← h2]
        have hfmt : (uploadDoc f p).format =
            some (strToLower (removeFirstDot (extname f.originalname))) := rfl
        unfold applyPreSave
        simp only [hfmt]
        split
        · exact hfmt
        · simp [strToLower_idem]
      · exact absurd hs (by simp)

/-- Witness for C10: the registered "clip.wav" record stores the lowercased
extension. -/
theorem stored_format_lowercase_witness :
    demoAudio.format = some (strToLower (removeFirstDot (extname "clip.wav"))) :=
  stored_format_lowercase.2.2 ⟨none, ["/uploads/clip.wav"]⟩
    ⟨"/uploads/clip.wav", "clip.wav", 120000⟩ (.ok {}) demoAudio
    (by decide) (by decide)

end SoundGuard
